import Mathlib

/-!
Verification of the Bookworm OCR menu controller (`bookworm/ocr/ocr_menu.py`)
and the Word-to-HTML document converter (`bookworm/document/formats/word.py`).
The Python modules are embedded shallowly: each handler becomes a pure Lean
function from an explicit state (stored options, scan cache, cancellation
flag, view content) and an environment oracle (dialog outcomes, engine
language list, page rendering) to a new state together with the list of
observable effects the handler performs (content updates, signals, dispatched
OCR requests, message boxes, logging).
-/

set_option autoImplicit false

namespace Bookworm

/-- An OCR language, as produced by `current_ocr_engine.get_sorted_languages()`.
Only the `is_rtl` field is consulted by the OCR menu (for text direction). -/
structure OcrLanguage where
  name : String
  is_rtl : Bool
deriving DecidableEq, Repr

/-- OCR options as returned by `OCROptionsDialog.ShowModal()` and cached in
`service.stored_options`: language, zoom factor, image processing pipelines
(kept abstract as strings) and the persistence flag `store_options`. -/
structure OcrOptions where
  language : OcrLanguage
  zoom_factor : Nat
  image_processing_pipelines : List String
  store_options : Bool
deriving DecidableEq, Repr

/-- `OcrRequest` from `bookworm.ocr_engines`: immutable value object passed to
the engine.  Images are abstracted to opaque numeric identifiers.  The cookie
is the page number for page scans and absent for the image-file path. -/
structure OcrRequest where
  language : OcrLanguage
  image : Nat
  image_processing_pipelines : List String
  cookie : Option Nat
deriving DecidableEq, Repr

/-- `OcrResult` for the single-page scan path: the engine echoes the request
cookie (the page number) together with the recognized text. -/
structure OcrResult where
  cookie : Nat
  recognized_text : String
deriving DecidableEq, Repr

/-- `service.saved_scanned_pages`: a dictionary from page number to recognized
text, embedded as an association list (later bindings shadow earlier ones). -/
abbrev ScanCache := List (Nat × String)

/-- Dictionary lookup `cache[page]` on the scan cache. -/
def cacheLookup (c : ScanCache) (p : Nat) : Option String :=
  match c with
  | [] => none
  | (k, v) :: rest => if k = p then some v else cacheLookup rest p

/-- Dictionary assignment `cache[page] = text` (shadowing insert). -/
def cacheInsert (c : ScanCache) (p : Nat) (t : String) : ScanCache :=
  (p, t) :: c

/-- The mutable state touched by `OCRMenu`: the per-session stored OCR options
and scan cache on the service, the `_ocr_cancelled` threading event (a flag),
and the view state (current page, displayed content, text direction). -/
structure OcrState where
  stored_options : Option OcrOptions
  saved_scanned_pages : ScanCache
  ocr_cancelled : Bool
  current_page : Nat
  displayed_content : String
  text_direction : Bool
deriving DecidableEq, Repr

/-- Observable effects performed by the OCR menu handlers. -/
inductive Effect where
  /-- `self.view.set_content(text)` -/
  | setContent (text : String)
  /-- `self.view.set_text_direction(rtl)` -/
  | setTextDirection (rtl : Bool)
  /-- `self.service._init_ocr_engine()` -/
  | initEngine
  /-- `wx.MessageBox(...)`: a blocking user notification -/
  | messageBox (msg : String)
  /-- `OCROptionsDialog(...).ShowModal()`: the modal options dialog -/
  | showOptionsDialog
  /-- `ocr_started.send(...)` -/
  | signalOcrStarted
  /-- `ocr_ended.send(..., isfaulted=b)` -/
  | signalOcrEnded (isfaulted : Bool)
  /-- `sounds.<name>.play()` -/
  | playSound (name : String)
  /-- `speech.announce(msg)` -/
  | announce (msg : String)
  /-- `log.exception(...)` in `_process_ocr_result` -/
  | logException
  /-- submission of an `OcrRequest` to the engine via `AsyncSnakDialog` -/
  | dispatchOcr (req : OcrRequest)
  /-- `self.view.contentTextCtrl.SetFocusFromKbd()` / `SetFocus` -/
  | setFocus
deriving DecidableEq, Repr

/-- The environment oracle: engine language list
(`current_ocr_engine.get_sorted_languages()`), the outcome of
`OCROptionsDialog.ShowModal()` as a function of the `stored_options` the
dialog is pre-populated with (`none` = user cancelled), and
`document.get_page_image(page, zoom_factor)` as an opaque image identifier. -/
structure Env where
  languages : List OcrLanguage
  dialogResult : Option OcrOptions → Option OcrOptions
  pageImage : Nat → Nat → Nat

/-- `OCRMenu._get_ocr_options_from_dlg(last_stored_options)`: initialize the
engine, fetch the sorted languages; if none, show a blocking message box and
return `None`; otherwise clear the scan cache and show the options dialog,
returning its outcome. -/
def getOcrOptionsFromDlg (env : Env) (last_stored_options : Option OcrOptions)
    (st : OcrState) : OcrState × Option OcrOptions × List Effect :=
  if env.languages.isEmpty then
    (st, none, [Effect.initEngine, Effect.messageBox "No Languages for OCR"])
  else
    ({ st with saved_scanned_pages := [] },
     env.dialogResult last_stored_options,
     [Effect.initEngine, Effect.showOptionsDialog])

/-- `OCRMenu._get_ocr_options(from_cache)`: remember the previously stored
options; when `from_cache` is false, clear the stored options and the scan
cache; if stored options remain, return them; otherwise consult the dialog,
then store the returned options when their `store_options` flag is set and
clear the stored slot otherwise. -/
def getOcrOptions (env : Env) (from_cache : Bool) (st : OcrState) :
    OcrState × Option OcrOptions × List Effect :=
  let last_stored_opts := st.stored_options
  let st0 := if from_cache then st
    else { st with stored_options := none, saved_scanned_pages := [] }
  match st0.stored_options with
  | some opts => (st0, some opts, [])
  | none =>
    let r := getOcrOptionsFromDlg env last_stored_opts st0
    match r.2.1 with
    | some opts =>
      if opts.store_options then
        ({ r.1 with stored_options := some opts }, some opts, r.2.2)
      else
        ({ r.1 with stored_options := none }, some opts, r.2.2)
    | none => ({ r.1 with stored_options := none }, none, r.2.2)

/-- `OCRMenu._run_ocr(request, callback)`: send `ocr-started`, play the start
cue, and submit the recognition task (the dispatched request is recorded as an
effect; its completion is delivered separately to `processOcrResult`). -/
def runOcr (req : OcrRequest) : List Effect :=
  [Effect.signalOcrStarted, Effect.playSound "ocr_start", Effect.dispatchOcr req]

/-- The `_ocr_callback` closure defined inside `OCRMenu.onScanCurrentPage`:
store the recognized text in the scan cache under the result cookie; if the
cookie is still the current page, display the text and set the text
direction from the language of the captured options. -/
def ocrCallback (ocr_opts : OcrOptions) (st : OcrState) (ocr_result : OcrResult) :
    OcrState × List Effect :=
  let newCache :=
    cacheInsert st.saved_scanned_pages ocr_result.cookie ocr_result.recognized_text
  let st1 := { st with saved_scanned_pages := newCache }
  if ocr_result.cookie = st1.current_page then
    ({ st1 with displayed_content := ocr_result.recognized_text,
                text_direction := ocr_opts.language.is_rtl },
     [Effect.setContent ocr_result.recognized_text,
      Effect.setTextDirection ocr_opts.language.is_rtl])
  else
    (st1, [])

/-- `OCRMenu.onScanCurrentPage`: clear the cancellation flag, resolve options
from the cache; on cancellation announce and return; if the current page is in
the scan cache display the cached text and return; otherwise render the page
image, build an `OcrRequest` with the page number as cookie and dispatch it. -/
def onScanCurrentPage (env : Env) (st : OcrState) : OcrState × List Effect :=
  let st0 := { st with ocr_cancelled := false }
  let r := getOcrOptions env true st0
  match r.2.1 with
  | none => (r.1, r.2.2 ++ [Effect.announce "Canceled"])
  | some ocr_opts =>
    match cacheLookup r.1.saved_scanned_pages r.1.current_page with
    | some text =>
      ({ r.1 with displayed_content := text }, r.2.2 ++ [Effect.setContent text])
    | none =>
      let image := env.pageImage r.1.current_page ocr_opts.zoom_factor
      let req : OcrRequest :=
        { language := ocr_opts.language,
          image := image,
          image_processing_pipelines := ocr_opts.image_processing_pipelines,
          cookie := some r.1.current_page }
      (r.1, r.2.2 ++ runOcr req)

/-- `OCRMenu._process_ocr_result(callback, task)`: if the cancellation flag is
set, send `ocr-ended(isfaulted=True)`, clear the flag and return; otherwise
obtain the task result — on exception log it, send `ocr-ended(isfaulted=True)`
and return; on success run the callback, play the end cue, announce, focus the
content control and send `ocr-ended(isfaulted=False)`. -/
def processOcrResult (callback : OcrState → OcrResult → OcrState × List Effect)
    (st : OcrState) (task : Except Unit OcrResult) : OcrState × List Effect :=
  if st.ocr_cancelled then
    ({ st with ocr_cancelled := false }, [Effect.signalOcrEnded true])
  else
    match task with
    | Except.error _ => (st, [Effect.logException, Effect.signalOcrEnded true])
    | Except.ok ocr_result =>
      let r := callback st ocr_result
      (r.1, r.2 ++ [Effect.playSound "ocr_end", Effect.announce "Scan finished.",
                    Effect.setFocus, Effect.signalOcrEnded false])

/-- `OCRMenu._on_ocr_cancelled`: set the cancellation flag, announce, play the
end cue. -/
def onOcrCancelled (st : OcrState) : OcrState × List Effect :=
  ({ st with ocr_cancelled := true },
   [Effect.announce "OCR canceled", Effect.playSound "ocr_end"])

/-- The `ocr-ended(isfaulted=·)` signals contained in an effect list, in
order. -/
def endedSignals (effs : List Effect) : List Bool :=
  effs.filterMap fun e =>
    match e with
    | Effect.signalOcrEnded b => some b
    | _ => none

/-- Whether an effect list dispatches some `OcrRequest` to the engine. -/
def hasDispatch (effs : List Effect) : Bool :=
  effs.any fun e =>
    match e with
    | Effect.dispatchOcr _ => true
    | _ => false

/-- Invariant maintained by the module on `service.stored_options`: options
are only ever stored when their `store_options` flag is set
(`_get_ocr_options` stores `opts` only under `opts.store_options`, and
`_on_reader_unloaded` resets the slot to `None`). -/
def storedInvariant (st : OcrState) : Bool :=
  match st.stored_options with
  | none => true
  | some o => o.store_options

/-! ## Batch text extraction (`scan to text file`) -/

/-- Worker loop underlying the batch extraction: process the given pages in
order; before each page consult the abort hook; recognize the page, append
its text to the output and yield the page index as a progress value. -/
def scanToTextGo (recognize : Nat → String) (aborted : Nat → Bool) :
    List Nat → List Nat × String
  | [] => ([], "")
  | p :: rest =>
    if aborted p then ([], "")
    else
      let r := scanToTextGo recognize aborted rest
      (p :: r.1, recognize p ++ r.2)

/-- Modelled from the spec: `current_ocr_engine.scan_to_text(doc, output_file,
ocr_opts)` is defined in `bookworm/ocr_engines`, which is not part of this
excerpt; only its invocation from `OCRMenu._continue_with_text_extraction` is
visible.  Per the spec it iterates all pages of the document in order,
recognizes each page, writes the accumulated text to the output file, emits a
progress value after each page, and checks the abort hook between page
iterations, stopping without error when aborted.  `recognize` abstracts the
per-page OCR, `aborted` the abort hook, `n` the number of pages; the result is
the progress stream and the final content of the output file. -/
def scan_to_text (recognize : Nat → String) (aborted : Nat → Bool) (n : Nat) :
    List Nat × String :=
  scanToTextGo recognize aborted (List.range n)

/-- `OCRMenu._continue_with_text_extraction`: runs `scan_to_text` as a queue
process and, for each yielded progress value, updates the progress dialog with
value `progress + 1`; the result is the list of dialog update values and the
output file content. -/
def continueWithTextExtraction (recognize : Nat → String) (aborted : Nat → Bool)
    (n : Nat) : List Nat × String :=
  let r := scan_to_text recognize aborted n
  (r.1.map fun p => p + 1, r.2)

/-- The concatenation of the recognized text of the given pages, in order. -/
def concatRecognized (recognize : Nat → String) (pages : List Nat) : String :=
  pages.foldr (fun p acc => recognize p ++ acc) ""

/-! ## Word document converter (`bookworm/document/formats/word.py`) -/

/-- The byte content of a source `.docx` file. -/
abbrev FileBytes := List Nat

/-- The on-disk conversion cache (the `docx_as_html` storage area): a mapping
from file name to the HTML content written there. -/
structure ConvStore where
  files : List (String × String)
deriving DecidableEq, Repr

/-- First-match lookup in a list of named files. -/
def filesLookup (l : List (String × String)) (name : String) : Option String :=
  match l with
  | [] => none
  | (k, v) :: rest => if k = name then some v else filesLookup rest name

/-- Lookup of a file name in the storage area (`target_file.exists()` /
reading the file). -/
def storeLookup (s : ConvStore) (name : String) : Option String :=
  filesLookup s.files name

/-- Observable effects of the converter. -/
inductive ConvEffect where
  /-- `mammoth.convert_to_html(docx)` followed by `make_proper_html`: one
  invocation of the external converter on the given input bytes -/
  | convert (input : FileBytes)
  /-- `target_file.write_text(html_string)` -/
  | writeFile (name : String)
deriving DecidableEq, Repr

/-- `WordDocument.get_converted_filename(filename)`: the target file in the
storage area is named by the content hash of the input (`generate_file_md5`,
defined in `bookworm/utils` outside this excerpt and abstracted as the `md5`
parameter) with extension `.html`; when the target exists the converter is not
invoked, otherwise the source is converted (`mammoth.convert_to_html` plus
`make_proper_html`, external collaborators abstracted as the `convert`
parameter) and the result written to the target.  Returns the updated storage
area, the target file name and the conversion effects performed. -/
def get_converted_filename (md5 : FileBytes → String) (convert : FileBytes → String)
    (store : ConvStore) (bytes : FileBytes) : ConvStore × String × List ConvEffect :=
  let target_file := md5 bytes ++ ".html"
  if (storeLookup store target_file).isSome then
    (store, target_file, [])
  else
    (⟨(target_file, convert bytes) :: store.files⟩, target_file,
     [ConvEffect.convert bytes, ConvEffect.writeFile target_file])

/-- A document URI, wrapping a file system path. -/
structure DocumentUri where
  filename : String
deriving DecidableEq, Repr

/-- Modelled from the spec: `DocumentUri.from_filename` is defined in
`bookworm/document/uri.py`, outside this excerpt; it wraps a file system path
as a document URI. -/
def DocumentUri.from_filename (f : String) : DocumentUri :=
  ⟨f⟩

/-- What `WordDocument.read` delivers to its caller: it either raises
`ChangeDocument(old_uri, new_uri, reason)` or would return page content (the
latter alternative exists in the type only to state that it never occurs). -/
inductive ReadOutcome where
  | changeDocument (old_uri : DocumentUri) (new_uri : DocumentUri) (reason : String)
  | pageContent (text : String)
deriving DecidableEq, Repr

/-- `WordDocument.read`: obtain the converted file (synchronously, via
`process_worker.submit(...).result()`) and raise `ChangeDocument` from the
URI of the document itself to the URI of the converted HTML file. -/
def WordDocument.read (md5 : FileBytes → String) (convert : FileBytes → String)
    (store : ConvStore) (uri : DocumentUri) (bytes : FileBytes) :
    ConvStore × ReadOutcome :=
  let r := get_converted_filename md5 convert store bytes
  (r.1,
   ReadOutcome.changeDocument uri (DocumentUri.from_filename r.2.1)
     "Docx converted to html")

/-! ## Concrete fixtures used by witnesses and counterexamples -/

/-- A sample OCR language. -/
def lang0 : OcrLanguage :=
  ⟨"eng", false⟩

/-- Sample options with the persistence flag set. -/
def opts0 : OcrOptions :=
  ⟨lang0, 2, ["grayscale"], true⟩

/-- A sample environment: one language, the dialog confirms with `opts0`. -/
def env0 : Env :=
  ⟨[lang0], fun _ => some opts0, fun p z => p * 100 + z⟩

/-- An environment whose engine reports no OCR languages. -/
def envNoLangs : Env :=
  ⟨[], fun _ => none, fun _ _ => 0⟩

/-- A state with page 1 cached but no stored options. -/
def stCached : OcrState :=
  ⟨none, [(1, "hello")], false, 1, "", false⟩

/-- A state with stored options and page 1 cached. -/
def stStored : OcrState :=
  ⟨some opts0, [(1, "hello")], false, 1, "", false⟩

/-- A state whose current page is 1 and whose cancellation flag is clear. -/
def stOther : OcrState :=
  ⟨none, [], false, 1, "shown", false⟩

/-- A state whose cancellation flag is set. -/
def stCancelled : OcrState :=
  ⟨some opts0, [], true, 1, "prev", false⟩

/-- A sample OCR result for page 2. -/
def res1 : OcrResult :=
  ⟨2, "world"⟩

/-! ## Claim theorems -/

/-- C1 (counterexample): page 1 is present in the scan cache of `stCached`,
yet `onScanCurrentPage` dispatches an `OcrRequest` to the engine and does not
display the cached text: since no options are stored, options resolution goes
through the dialog, which clears the scan cache first. -/
theorem onScanCurrentPage_cached_dispatch_counterexample :
    cacheLookup stCached.saved_scanned_pages stCached.current_page = some "hello"
    ∧ hasDispatch (onScanCurrentPage env0 stCached).2 = true
    ∧ (onScanCurrentPage env0 stCached).1.displayed_content ≠ "hello" := by
  decide

/-- C1 (amended): for every page already present in the scan cache, when OCR
options are already stored (so options resolution hits the cache and never
opens the dialog), `onScanCurrentPage` displays exactly the cached text and
performs no other effect — in particular no `OcrRequest` is dispatched. -/
theorem onScanCurrentPage_cached_hit (env : Env) (st : OcrState)
    (opts : OcrOptions) (text : String) (hst : st.stored_options = some opts)
    (hc : cacheLookup st.saved_scanned_pages st.current_page = some text) :
    onScanCurrentPage env st
      = ({ st with ocr_cancelled := false, displayed_content := text },
         [Effect.setContent text]) := by
  unfold onScanCurrentPage getOcrOptions
  simp [hst, hc]

/-- C1 (witness): the amended statement at `env0` and `stStored`. -/
theorem onScanCurrentPage_cached_hit_witness :
    onScanCurrentPage env0 stStored
      = ({ stStored with ocr_cancelled := false, displayed_content := "hello" },
         [Effect.setContent "hello"]) :=
  onScanCurrentPage_cached_hit env0 stStored opts0 "hello" (by decide) (by decide)

/-- C2: the single-page result callback always stores the recognized text in
the scan cache under the result cookie; when the cookie differs from the
current page the displayed content and text direction are unchanged and no
view effect is performed; when the cookie equals the current page the display
and text direction are updated. -/
theorem ocrCallback_cache_and_display (opts : OcrOptions) (st : OcrState)
    (res : OcrResult) :
    cacheLookup (ocrCallback opts st res).1.saved_scanned_pages res.cookie
        = some res.recognized_text
    ∧ (res.cookie ≠ st.current_page →
        (ocrCallback opts st res).1.displayed_content = st.displayed_content
        ∧ (ocrCallback opts st res).1.text_direction = st.text_direction
        ∧ (ocrCallback opts st res).2 = [])
    ∧ (res.cookie = st.current_page →
        (ocrCallback opts st res).1.displayed_content = res.recognized_text
        ∧ (ocrCallback opts st res).1.text_direction = opts.language.is_rtl) := by
  unfold ocrCallback
  by_cases h : res.cookie = st.current_page <;>
    simp [h, cacheInsert, cacheLookup]

/-- C2 (witness): a completion for page 2 arriving while page 1 is displayed
leaves the displayed content unchanged. -/
theorem ocrCallback_cache_and_display_witness :
    (ocrCallback opts0 stOther res1).1.displayed_content = stOther.displayed_content
    ∧ cacheLookup (ocrCallback opts0 stOther res1).1.saved_scanned_pages res1.cookie
        = some res1.recognized_text :=
  ⟨((ocrCallback_cache_and_display opts0 stOther res1).2.1 (by decide)).1,
   (ocrCallback_cache_and_display opts0 stOther res1).1⟩

/-- C3: when the cancellation flag is set as a completion is processed, the
result is discarded: the state change is exactly the clearing of the flag and
the only effect is a single `ocr-ended(isfaulted=True)` signal — the success
callback is not invoked.  Moreover any single completion processing sends
exactly one `ocr-ended` signal, either faulted or not, never both. -/
theorem processOcrResult_cancelled_faulted (opts : OcrOptions) (st : OcrState)
    (task : Except Unit OcrResult) (hc : st.ocr_cancelled = true) :
    processOcrResult (ocrCallback opts) st task
        = ({ st with ocr_cancelled := false }, [Effect.signalOcrEnded true])
    ∧ ∀ st2 task2,
        endedSignals (processOcrResult (ocrCallback opts) st2 task2).2 = [true]
        ∨ endedSignals (processOcrResult (ocrCallback opts) st2 task2).2 = [false] := by
  constructor
  · unfold processOcrResult
    simp [hc]
  · intro st2 task2
    unfold processOcrResult
    by_cases h : st2.ocr_cancelled
    · left
      simp [h, endedSignals]
    · cases task2 with
      | error e =>
        left
        simp [h, endedSignals]
      | ok res =>
        right
        unfold ocrCallback
        by_cases h2 : res.cookie = st2.current_page <;>
          simp [h, h2, endedSignals]

/-- C3 (witness): a completion arriving after cancellation, at concrete
inputs. -/
theorem processOcrResult_cancelled_faulted_witness :
    processOcrResult (ocrCallback opts0) stCancelled (Except.ok res1)
      = ({ stCancelled with ocr_cancelled := false }, [Effect.signalOcrEnded true]) :=
  (processOcrResult_cancelled_faulted opts0 stCancelled (Except.ok res1) (by decide)).1

/-- C4 (counterexample): for a request whose background call raised an
exception but whose cancellation flag is set when the completion is processed,
the exception is not logged (the cancellation branch runs instead), refuting
the unconditional claim. -/
theorem processOcrResult_exception_no_log_counterexample :
    Effect.logException ∉
      (processOcrResult (ocrCallback opts0) stCancelled (Except.error ())).2 := by
  decide

/-- C4 (amended): when the cancellation flag is not set, a completion whose
background call raised an exception is processed by logging the exception and
sending a single `ocr-ended(isfaulted=True)` signal; the state — displayed
content and scan cache included — is unchanged, the success callback is not
invoked, and the exception is not propagated (processing returns normally). -/
theorem processOcrResult_exception_faulted
    (cb : OcrState → OcrResult → OcrState × List Effect) (st : OcrState)
    (hc : st.ocr_cancelled = false) :
    processOcrResult cb st (Except.error ())
      = (st, [Effect.logException, Effect.signalOcrEnded true]) := by
  unfold processOcrResult
  simp [hc]

/-- C4 (witness): the amended statement at concrete inputs. -/
theorem processOcrResult_exception_faulted_witness :
    processOcrResult (ocrCallback opts0) stOther (Except.error ())
      = (stOther, [Effect.logException, Effect.signalOcrEnded true]) :=
  processOcrResult_exception_faulted (ocrCallback opts0) stOther (by decide)

/-- `_get_ocr_options_from_dlg` never touches the `_ocr_cancelled` flag. -/
theorem getOcrOptionsFromDlg_preserves_flag (env : Env)
    (last : Option OcrOptions) (st : OcrState) :
    (getOcrOptionsFromDlg env last st).1.ocr_cancelled = st.ocr_cancelled := by
  unfold getOcrOptionsFromDlg
  split <;> rfl

/-- `_get_ocr_options` never touches the `_ocr_cancelled` flag. -/
theorem getOcrOptions_preserves_flag (env : Env) (fc : Bool) (st : OcrState) :
    (getOcrOptions env fc st).1.ocr_cancelled = st.ocr_cancelled := by
  unfold getOcrOptions
  cases fc
  case false =>
    have h1 := getOcrOptionsFromDlg_preserves_flag env st.stored_options
      { st with stored_options := none, saved_scanned_pages := [] }
    rcases hgen : getOcrOptionsFromDlg env st.stored_options
        { st with stored_options := none, saved_scanned_pages := [] }
      with ⟨st1, opts1, effs1⟩
    rw [hgen] at h1
    have h2 : st1.ocr_cancelled = st.ocr_cancelled := by simpa using h1
    rcases opts1 with _ | o
    · simp [hgen, h2]
    · by_cases hs : o.store_options <;> simp [hgen, hs, h2]
  case true =>
    rcases hm : st.stored_options with _ | opts
    · have h1 := getOcrOptionsFromDlg_preserves_flag env none st
      rcases hgen : getOcrOptionsFromDlg env none st with ⟨st1, opts1, effs1⟩
      rw [hgen] at h1
      have h2 : st1.ocr_cancelled = st.ocr_cancelled := by simpa using h1
      rcases opts1 with _ | o
      · simp [hm, hgen, h2]
      · by_cases hs : o.store_options <;> simp [hm, hgen, hs, h2]
    · simp [hm]

/-- C10: cancellation is consumed by exactly one result delivery.  Processing
a completion with the flag set discards the result, sends one faulted
`ocr-ended` signal and clears the flag, so a subsequent completion processed
with no new cancellation runs its success callback (the scan cache receives
the recognized text) and sends a single non-faulted `ocr-ended` signal; and
every `onScanCurrentPage` invocation leaves the flag cleared. -/
theorem cancellation_consumed_once
    (cb : OcrState → OcrResult → OcrState × List Effect) (opts : OcrOptions)
    (env : Env) (st : OcrState) (task : Except Unit OcrResult) (res : OcrResult)
    (hc : st.ocr_cancelled = true) :
    (processOcrResult cb st task).1.ocr_cancelled = false
    ∧ (processOcrResult cb st task).2 = [Effect.signalOcrEnded true]
    ∧ endedSignals (processOcrResult (ocrCallback opts)
        (processOcrResult cb st task).1 (Except.ok res)).2 = [false]
    ∧ cacheLookup (processOcrResult (ocrCallback opts)
        (processOcrResult cb st task).1 (Except.ok res)).1.saved_scanned_pages
        res.cookie = some res.recognized_text
    ∧ (onScanCurrentPage env st).1.ocr_cancelled = false := by
  have hfirst : processOcrResult cb st task
      = ({ st with ocr_cancelled := false }, [Effect.signalOcrEnded true]) := by
    unfold processOcrResult
    simp [hc]
  refine ⟨by rw [hfirst], by rw [hfirst], ?_, ?_, ?_⟩
  · rw [hfirst]
    unfold processOcrResult ocrCallback
    by_cases h2 : res.cookie = st.current_page <;> simp [h2, endedSignals]
  · rw [hfirst]
    unfold processOcrResult ocrCallback
    by_cases h2 : res.cookie = st.current_page <;>
      simp [h2, cacheInsert, cacheLookup]
  · unfold onScanCurrentPage
    have hflag := getOcrOptions_preserves_flag env true { st with ocr_cancelled := false }
    rcases hopt : (getOcrOptions env true { st with ocr_cancelled := false }).2.1 with _ | o
    · simp [hopt, hflag]
    · rcases hcl : cacheLookup (getOcrOptions env true
          { st with ocr_cancelled := false }).1.saved_scanned_pages
          (getOcrOptions env true { st with ocr_cancelled := false }).1.current_page
        with _ | t <;> simp [hopt, hcl, hflag]

/-- C10 (witness): the statement at concrete inputs. -/
theorem cancellation_consumed_once_witness :
    endedSignals (processOcrResult (ocrCallback opts0)
      (processOcrResult (ocrCallback opts0) stCancelled (Except.ok res1)).1
      (Except.ok res1)).2 = [false]
    ∧ (onScanCurrentPage env0 stCancelled).1.ocr_cancelled = false :=
  ⟨(cancellation_consumed_once (ocrCallback opts0) opts0 env0 stCancelled
      (Except.ok res1) res1 (by decide)).2.2.1,
   (cancellation_consumed_once (ocrCallback opts0) opts0 env0 stCancelled
      (Except.ok res1) res1 (by decide)).2.2.2.2⟩

/-- `_get_ocr_options_from_dlg` either leaves the scan cache alone (the
no-languages branch) or clears it (just before showing the dialog). -/
theorem getOcrOptionsFromDlg_cache (env : Env) (last : Option OcrOptions)
    (st : OcrState) :
    (getOcrOptionsFromDlg env last st).1.saved_scanned_pages = st.saved_scanned_pages
    ∨ (getOcrOptionsFromDlg env last st).1.saved_scanned_pages = [] := by
  unfold getOcrOptionsFromDlg
  split
  · left; rfl
  · right; rfl

/-- C5: every non-cached options resolution (`from_cache=False`) leaves the
scan cache cleared; and whenever a resolution returns options — from the
cached slot (which by the invariant of the module only holds options whose
persistence flag is set) or from the dialog — the stored-options slot ends up
holding those options if their `store_options` flag is set, and `None`
otherwise. -/
theorem getOcrOptions_clear_and_store (env : Env) (st : OcrState) :
    (getOcrOptions env false st).1.saved_scanned_pages = []
    ∧ ∀ fc opts, storedInvariant st = true →
        (getOcrOptions env fc st).2.1 = some opts →
        (getOcrOptions env fc st).1.stored_options
          = if opts.store_options then some opts else none := by
  constructor
  · have h1 := getOcrOptionsFromDlg_cache env st.stored_options
      { st with stored_options := none, saved_scanned_pages := [] }
    rcases hgen : getOcrOptionsFromDlg env st.stored_options
        { st with stored_options := none, saved_scanned_pages := [] }
      with ⟨st1, opts1, effs1⟩
    rw [hgen] at h1
    have h2 : st1.saved_scanned_pages = [] := by
      rcases h1 with h | h <;> simpa using h
    unfold getOcrOptions
    rcases opts1 with _ | o
    · simp [hgen, h2]
    · by_cases hs : o.store_options <;> simp [hgen, hs, h2]
  · intro fc opts hinv heq
    cases fc
    case false =>
      rcases hgen : getOcrOptionsFromDlg env st.stored_options
          { st with stored_options := none, saved_scanned_pages := [] }
        with ⟨st1, opts1, effs1⟩
      unfold getOcrOptions at heq ⊢
      rcases opts1 with _ | o
      · simp [hgen] at heq
      · by_cases hs : o.store_options
        · simp [hgen, hs] at heq ⊢
          subst heq
          simp [hs]
        · simp [hgen, hs] at heq ⊢
          subst heq
          simp [hs]
    case true =>
      rcases hm : st.stored_options with _ | o0
      · rcases hgen : getOcrOptionsFromDlg env none st with ⟨st1, opts1, effs1⟩
        unfold getOcrOptions at heq ⊢
        rcases opts1 with _ | o
        · simp [hm, hgen] at heq
        · by_cases hs : o.store_options
          · simp [hm, hgen, hs] at heq ⊢
            subst heq
            simp [hs]
          · simp [hm, hgen, hs] at heq ⊢
            subst heq
            simp [hs]
      · unfold getOcrOptions at heq ⊢
        unfold storedInvariant at hinv
        rw [hm] at hinv
        simp at hinv
        simp [hm] at heq ⊢
        subst heq
        simp [hinv]

/-- C5 (witness): the statement at `env0` and `stStored`. -/
theorem getOcrOptions_clear_and_store_witness :
    (getOcrOptions env0 false stStored).1.saved_scanned_pages = []
    ∧ (getOcrOptions env0 true stStored).1.stored_options
        = if opts0.store_options then some opts0 else none :=
  ⟨(getOcrOptions_clear_and_store env0 stStored).1,
   (getOcrOptions_clear_and_store env0 stStored).2 true opts0 (by decide) (by decide)⟩

/-- A state with stored options and a non-empty scan cache, used to exhibit
the partial state change performed by a non-cached resolution before the
language check. -/
def stC6 : OcrState :=
  ⟨some opts0, [(1, "x")], false, 1, "", false⟩

/-- C6 (counterexample): with no OCR language available, a non-cached
resolution does abort with a blocking notification and returns no options,
but the stored options and the scan cache are NOT the same as before the
call — both were cleared at entry, before the language check. -/
theorem getOcrOptions_no_langs_partial_state_counterexample :
    (getOcrOptions envNoLangs false stC6).2.1 = none
    ∧ Effect.messageBox "No Languages for OCR" ∈ (getOcrOptions envNoLangs false stC6).2.2
    ∧ (getOcrOptions envNoLangs false stC6).1.saved_scanned_pages
        ≠ stC6.saved_scanned_pages
    ∧ (getOcrOptions envNoLangs false stC6).1.stored_options ≠ stC6.stored_options := by
  decide

/-- C6 (amended): when no OCR language is available, any options resolution
that consults the engine shows the blocking notification, returns no options
and opens no dialog.  A cached-mode resolution returns the stored options
unchanged (no language check at all), and when no options are stored it
changes nothing; a non-cached resolution has already cleared the stored
options and the scan cache at entry and makes no further change. -/
theorem getOcrOptions_no_langs_aborts (env : Env) (st : OcrState)
    (hl : env.languages = []) :
    (getOcrOptions env true st).2.1 = st.stored_options
    ∧ (st.stored_options = none →
        getOcrOptions env true st
          = (st, none, [Effect.initEngine, Effect.messageBox "No Languages for OCR"]))
    ∧ getOcrOptions env false st
        = ({ st with stored_options := none, saved_scanned_pages := [] }, none,
           [Effect.initEngine, Effect.messageBox "No Languages for OCR"]) := by
  have hempty : env.languages.isEmpty = true := by simp [hl]
  refine ⟨?_, ?_, ?_⟩
  · rcases hm : st.stored_options with _ | o
    · unfold getOcrOptions getOcrOptionsFromDlg
      simp [hm, hempty]
    · unfold getOcrOptions
      simp [hm]
  · intro hm
    unfold getOcrOptions getOcrOptionsFromDlg
    simp [hm, hempty]
    cases st
    simp_all
  · unfold getOcrOptions getOcrOptionsFromDlg
    simp [hempty]

/-- C6 (witness): the non-cached branch of the amended statement at
`envNoLangs` and `stC6`. -/
theorem getOcrOptions_no_langs_aborts_witness :
    getOcrOptions envNoLangs false stC6
      = ({ stC6 with stored_options := none, saved_scanned_pages := [] }, none,
         [Effect.initEngine, Effect.messageBox "No Languages for OCR"]) :=
  (getOcrOptions_no_langs_aborts envNoLangs stC6 (by decide)).2.2

/-- The extraction loop processes exactly the longest prefix of pages on
which the abort hook is silent, accumulating their recognized text. -/
theorem scanToTextGo_eq_takeWhile (recognize : Nat → String) (aborted : Nat → Bool)
    (l : List Nat) :
    scanToTextGo recognize aborted l
      = (l.takeWhile (fun p => !aborted p),
         concatRecognized recognize (l.takeWhile (fun p => !aborted p))) := by
  induction l with
  | nil => simp [scanToTextGo, concatRecognized]
  | cons p rest ih =>
    by_cases h : aborted p
    · simp [scanToTextGo, h, List.takeWhile_cons, concatRecognized]
    · simp only [scanToTextGo, h, ih, List.takeWhile_cons, Bool.not_false,
        if_false, concatRecognized, List.foldr_cons]
      simp [h]

/-- `takeWhile` with an always-true predicate keeps the whole list. -/
theorem takeWhile_all_true (l : List Nat) : (l.takeWhile fun _ => true) = l := by
  induction l with
  | nil => rfl
  | cons p rest ih => simp [List.takeWhile_cons, ih]

/-- C8: over an `n`-page document, an unaborted batch extraction yields the
progress stream `0, 1, ..., n-1` — exactly `n` notifications, in strictly
increasing page order (hence `n` progress-dialog updates in
`_continue_with_text_extraction`) — and the output file holds the
concatenation of the recognized text of all pages.  With an abort hook, the run
processes exactly the prefix of pages before the first abort signal and the
output holds the concatenation over that prefix; processing is a total
function, so an abort raises nothing. -/
theorem scan_to_text_progress_output (recognize : Nat → String)
    (aborted : Nat → Bool) (n : Nat) :
    scan_to_text recognize (fun _ => false) n
        = (List.range n, concatRecognized recognize (List.range n))
    ∧ (List.range n).length = n
    ∧ List.Pairwise (· < ·) (List.range n)
    ∧ (continueWithTextExtraction recognize (fun _ => false) n).1.length = n
    ∧ scan_to_text recognize aborted n
        = ((List.range n).takeWhile (fun p => !aborted p),
           concatRecognized recognize ((List.range n).takeWhile (fun p => !aborted p)))
    ∧ ((List.range n).takeWhile fun p => !aborted p) <+: List.range n := by
  have hfull : scan_to_text recognize (fun _ => false) n
      = (List.range n, concatRecognized recognize (List.range n)) := by
    unfold scan_to_text
    rw [scanToTextGo_eq_takeWhile]
    simp [takeWhile_all_true]
  refine ⟨hfull, List.length_range n, List.pairwise_lt_range n, ?_,
    scanToTextGo_eq_takeWhile recognize aborted (List.range n), ?_⟩
  · unfold continueWithTextExtraction
    rw [hfull]
    simp
  · exact List.takeWhile_prefix _

/-- Two strings that agree after appending the same suffix are equal. -/
theorem append_html_right_cancel {a b : String}
    (h : a ++ ".html" = b ++ ".html") : a = b := by
  have hd : a.data ++ (".html" : String).data = b.data ++ (".html" : String).data := by
    rw [← String.data_append, ← String.data_append, h]
  have hab := List.append_cancel_right hd
  cases a
  cases b
  exact congrArg String.mk hab

/-- Cache hit: when the target file already exists, `get_converted_filename`
returns it unchanged with no effect. -/
theorem get_converted_filename_hit (md5 convert : FileBytes → String)
    (st : ConvStore) (b : FileBytes)
    (h : (storeLookup st (md5 b ++ ".html")).isSome = true) :
    get_converted_filename md5 convert st b = (st, md5 b ++ ".html", []) := by
  unfold get_converted_filename
  simp [h]

/-- Cache miss: when the target file does not exist, `get_converted_filename`
converts the input and writes the target. -/
theorem get_converted_filename_miss (md5 convert : FileBytes → String)
    (st : ConvStore) (b : FileBytes)
    (h : (storeLookup st (md5 b ++ ".html")).isSome = false) :
    get_converted_filename md5 convert st b
      = (⟨(md5 b ++ ".html", convert b) :: st.files⟩, md5 b ++ ".html",
         [ConvEffect.convert b, ConvEffect.writeFile (md5 b ++ ".html")]) := by
  unfold get_converted_filename
  simp [h]

/-- After a conversion of `b`, the target file for `b` exists in the store. -/
theorem get_converted_filename_target_exists (md5 convert : FileBytes → String)
    (s : ConvStore) (b : FileBytes) :
    (storeLookup (get_converted_filename md5 convert s b).1
      (md5 b ++ ".html")).isSome = true := by
  by_cases h : (storeLookup s (md5 b ++ ".html")).isSome
  · rw [get_converted_filename_hit md5 convert s b h]
    exact h
  · have h' : (storeLookup s (md5 b ++ ".html")).isSome = false := by simpa using h
    rw [get_converted_filename_miss md5 convert s b h']
    simp [storeLookup, filesLookup]

/-- A conversion of `b` touches no cache entry other than the target for `b`. -/
theorem get_converted_filename_other_entries (md5 convert : FileBytes → String)
    (s : ConvStore) (b : FileBytes) (name : String)
    (hn : name ≠ md5 b ++ ".html") :
    storeLookup (get_converted_filename md5 convert s b).1 name
      = storeLookup s name := by
  by_cases h : (storeLookup s (md5 b ++ ".html")).isSome
  · rw [get_converted_filename_hit md5 convert s b h]
  · have h' : (storeLookup s (md5 b ++ ".html")).isSome = false := by simpa using h
    rw [get_converted_filename_miss md5 convert s b h']
    simp [storeLookup, filesLookup, hn.symm]

/-- C7: converting the same source bytes a second time hits the on-disk cache
(no converter invocation, no store change, same target file); converting
different bytes whose content hash differs, and whose target is not yet
cached, invokes the converter and creates a new, distinct cache entry. -/
theorem get_converted_filename_cache (md5 convert : FileBytes → String)
    (s : ConvStore) (b b2 : FileBytes)
    (hmd : md5 b ≠ md5 b2)
    (hfresh : storeLookup s (md5 b2 ++ ".html") = none) :
    ((get_converted_filename md5 convert
        (get_converted_filename md5 convert s b).1 b).1
      = (get_converted_filename md5 convert s b).1
    ∧ (get_converted_filename md5 convert
        (get_converted_filename md5 convert s b).1 b).2.1
      = (get_converted_filename md5 convert s b).2.1
    ∧ (get_converted_filename md5 convert
        (get_converted_filename md5 convert s b).1 b).2.2 = [])
    ∧ ((get_converted_filename md5 convert
          (get_converted_filename md5 convert s b).1 b2).2.1
        ≠ (get_converted_filename md5 convert s b).2.1
    ∧ ConvEffect.convert b2 ∈ (get_converted_filename md5 convert
          (get_converted_filename md5 convert s b).1 b2).2.2
    ∧ storeLookup (get_converted_filename md5 convert
          (get_converted_filename md5 convert s b).1 b2).1 (md5 b2 ++ ".html")
        = some (convert b2)) := by
  have hne : md5 b2 ++ ".html" ≠ md5 b ++ ".html" := by
    intro h
    exact hmd (append_html_right_cancel h).symm
  have h1 : (get_converted_filename md5 convert s b).2.1 = md5 b ++ ".html" := by
    by_cases h : (storeLookup s (md5 b ++ ".html")).isSome
    · rw [get_converted_filename_hit md5 convert s b h]
    · have h' : (storeLookup s (md5 b ++ ".html")).isSome = false := by simpa using h
      rw [get_converted_filename_miss md5 convert s b h']
  have h2 := get_converted_filename_target_exists md5 convert s b
  have hA := get_converted_filename_hit md5 convert
    (get_converted_filename md5 convert s b).1 b h2
  have hfresh1 : storeLookup (get_converted_filename md5 convert s b).1
      (md5 b2 ++ ".html") = none := by
    rw [get_converted_filename_other_entries md5 convert s b _ hne]
    exact hfresh
  have h2f : (storeLookup (get_converted_filename md5 convert s b).1
      (md5 b2 ++ ".html")).isSome = false := by
    simp [hfresh1]
  have hB := get_converted_filename_miss md5 convert
    (get_converted_filename md5 convert s b).1 b2 h2f
  refine ⟨⟨by rw [hA], ?_, by rw [hA]⟩, ?_, ?_, ?_⟩
  · simp only [hA, h1]
  · simp only [hB, h1]
    exact hne
  · simp only [hB]
    simp
  · simp only [hB]
    simp [storeLookup, filesLookup]

/-- A sample content hash: decimal rendering of the byte list. -/
def md5W : FileBytes → String :=
  fun b => String.intercalate "-" (b.map toString)

/-- A sample converter output. -/
def convW : FileBytes → String :=
  fun _ => "<p>converted</p>"

/-- C7 (witness): the statement at concrete inputs — an empty store, bytes
`[1]` and `[2]`. -/
theorem get_converted_filename_cache_witness :
    (get_converted_filename md5W convW
        (get_converted_filename md5W convW ⟨[]⟩ [1]).1 [1]).2.2 = []
    ∧ ConvEffect.convert [2] ∈ (get_converted_filename md5W convW
        (get_converted_filename md5W convW ⟨[]⟩ [1]).1 [2]).2.2 :=
  ⟨(get_converted_filename_cache md5W convW ⟨[]⟩ [1] [2] (by decide) (by decide)).1.2.2,
   (get_converted_filename_cache md5W convW ⟨[]⟩ [1] [2] (by decide) (by decide)).2.2.1⟩

/-- C9: `WordDocument.read` never returns page content — for every store, URI
and source bytes it raises `ChangeDocument` carrying the URI of the converted
HTML file (the target file produced by `get_converted_filename`). -/
theorem read_always_changeDocument (md5 convert : FileBytes → String)
    (s : ConvStore) (uri : DocumentUri) (b : FileBytes) :
    (WordDocument.read md5 convert s uri b).2
      = ReadOutcome.changeDocument uri
          (DocumentUri.from_filename ((get_converted_filename md5 convert s b).2.1))
          "Docx converted to html"
    ∧ ∀ text, (WordDocument.read md5 convert s uri b).2 ≠ ReadOutcome.pageContent text := by
  refine ⟨rfl, ?_⟩
  intro text
  simp [WordDocument.read]

/-- C9 (witness): the statement at concrete inputs. -/
theorem read_always_changeDocument_witness :
    (WordDocument.read md5W convW ⟨[]⟩ ⟨"book.docx"⟩ [1, 2]).2
      = ReadOutcome.changeDocument ⟨"book.docx"⟩
          (DocumentUri.from_filename
            ((get_converted_filename md5W convW ⟨[]⟩ [1, 2]).2.1))
          "Docx converted to html"
    ∧ (WordDocument.read md5W convW ⟨[]⟩ ⟨"book.docx"⟩ [1, 2]).2
        ≠ ReadOutcome.pageContent "some page" :=
  ⟨(read_always_changeDocument md5W convW ⟨[]⟩ ⟨"book.docx"⟩ [1, 2]).1,
   (read_always_changeDocument md5W convW ⟨[]⟩ ⟨"book.docx"⟩ [1, 2]).2 "some page"⟩

end Bookworm
